import Mathlib

/-
Verification of the Nexalyze frontend service layer
(frontend-react/src/services/api.ts, pages/Reports.tsx, pages/Chat.tsx)
against its natural-language specification.

The TypeScript code is shallowly embedded: text is modelled as decoded
character sequences (the TextDecoder with streaming mode is abstracted by
working at the character level), JSON.parse is an abstract fallible
function, asynchronous control flow (the SSE read loop, the polling
interval callback, promise settlement) is modelled as explicit folds over
the sequence of delivered results, and JavaScript truthiness of strings
and numbers is modelled explicitly (empty string and zero are falsy).
-/

namespace Nexalyze

/-- Decoded text, as a sequence of characters. -/
abbrev Chars := List Char

/-- Event type tags of `ChatStreamEvent` in services/api.ts.  The tag
`end` is a Lean keyword, hence spelled `end_`. -/
inductive EventType where
  | start
  | status
  | thinking
  | tool_call
  | tool
  | content
  | complete
  | end_
  | error
  deriving DecidableEq, Repr

/-- The `ChatStreamEvent` interface of services/api.ts.  The unused
boolean flag field of the source is omitted; all other fields are
optional exactly as in the source. -/
structure ChatStreamEvent where
  type : EventType
  message : Option String := none
  query : Option String := none
  session_id : Option String := none
  tool_name : Option String := none
  tools_used : Option (List String) := none
  deriving DecidableEq, Repr

/-- JavaScript `a || d` for an optional string `a`: the default is taken
when the field is absent or the empty string (falsy). -/
def jsOrElse (o : Option String) (d : String) : String :=
  match o with
  | some s => if s = "" then d else s
  | none => d

/-- JavaScript `a || d` for a present string `a`. -/
def jsOr (s d : String) : String :=
  if s = "" then d else s

/-- JavaScript `s.trim()`: strip whitespace from both ends (the host
whitespace set is modelled by `Char.isWhitespace`). -/
def jsTrim (s : String) : String :=
  ⟨((s.data.dropWhile Char.isWhitespace).reverse.dropWhile Char.isWhitespace).reverse⟩

/-! ### The SSE line splitter

`streamChatMessage` accumulates decoded text in `buffer`, splits on
newline, pops the last element back into the buffer (`lines.pop() || ''`)
and processes the remaining, newline-terminated, lines.  `splitNl`
computes that pair (complete lines, retained partial line) directly. -/

/-- Split a character sequence at every newline: the first component is
the list of newline-terminated (complete) lines, the second is the
trailing text after the last newline (the retained buffer).  This is
exactly `buffer.split('\n')` followed by `lines.pop() || ''`. -/
def splitNl : Chars → List Chars × Chars
  | [] => ([], [])
  | c :: cs =>
    let r := splitNl cs
    if c = '\n' then ([] :: r.1, r.2)
    else
      match r.1 with
      | [] => ([], c :: r.2)
      | l :: ls => ((c :: l) :: ls, r.2)

theorem splitNl_nil : splitNl [] = ([], []) := rfl

theorem splitNl_newline_not_mem_snd (s : Chars) : '\n' ∉ (splitNl s).2 := by
  induction s with
  | nil => simp [splitNl]
  | cons c cs ih =>
    simp only [splitNl]
    by_cases hc : c = '\n'
    · simpa [hc] using ih
    · cases h : (splitNl cs).1 with
      | nil =>
        simp only [h, hc, if_neg hc]
        intro hmem
        rcases List.mem_cons.mp hmem with h1 | h1
        · exact hc h1.symm
        · exact ih h1
      | cons l ls => simpa [h, hc] using ih

theorem splitNl_of_no_newline (s : Chars) (h : '\n' ∉ s) : splitNl s = ([], s) := by
  induction s with
  | nil => rfl
  | cons c cs ih =>
    have hc : c ≠ '\n' := fun hc => h (hc ▸ List.mem_cons_self c cs)
    have hcs : '\n' ∉ cs := fun hm => h (List.mem_cons_of_mem c hm)
    simp [splitNl, hc, ih hcs]

theorem splitNl_snd_fixed (s : Chars) : splitNl (splitNl s).2 = ([], (splitNl s).2) :=
  splitNl_of_no_newline _ (splitNl_newline_not_mem_snd s)

/-- How splitting a concatenation relates to splitting the parts: the
partial line retained after `a` is glued onto the first line of `b`. -/
theorem splitNl_append (a b : Chars) :
    splitNl (a ++ b) =
      match (splitNl b).1 with
      | [] => ((splitNl a).1, (splitNl a).2 ++ (splitNl b).2)
      | l :: ls => ((splitNl a).1 ++ ((splitNl a).2 ++ l) :: ls, (splitNl b).2) := by
  induction a with
  | nil =>
    cases h : (splitNl b).1 with
    | nil =>
      simp only [List.nil_append, splitNl_nil]
      rw [← h]
    | cons l ls =>
      simp only [List.nil_append, splitNl_nil]
      rw [← h]
  | cons c cs ih =>
    cases h : (splitNl b).1 with
    | nil =>
      rw [h] at ih
      simp only at ih
      have ih1 : (splitNl (cs ++ b)).1 = (splitNl cs).1 := by rw [ih]
      have ih2 : (splitNl (cs ++ b)).2 = (splitNl cs).2 ++ (splitNl b).2 := by rw [ih]
      by_cases hc : c = '\n'
      · subst hc
        simp [splitNl, ih1, ih2]
      · cases h2 : (splitNl cs).1 with
        | nil => simp [splitNl, ih1, ih2, h2, hc]
        | cons l2 ls2 => simp [splitNl, ih1, ih2, h2, hc]
    | cons l ls =>
      rw [h] at ih
      simp only at ih
      have ih1 : (splitNl (cs ++ b)).1 = (splitNl cs).1 ++ ((splitNl cs).2 ++ l) :: ls := by
        rw [ih]
      have ih2 : (splitNl (cs ++ b)).2 = (splitNl b).2 := by rw [ih]
      by_cases hc : c = '\n'
      · subst hc
        simp [splitNl, ih1, ih2]
      · cases h2 : (splitNl cs).1 with
        | nil => simp [splitNl, ih1, ih2, h2, hc]
        | cons l2 ls2 => simp [splitNl, ih1, ih2, h2, hc]

/-- Splitting `a ++ b` is splitting `a`, then resuming on the retained
partial line of `a` glued in front of `b`. -/
theorem splitNl_resume (a b : Chars) :
    (splitNl (a ++ b)).1 = (splitNl a).1 ++ (splitNl ((splitNl a).2 ++ b)).1 ∧
    (splitNl (a ++ b)).2 = (splitNl ((splitNl a).2 ++ b)).2 := by
  have hb := splitNl_append a b
  have hp := splitNl_append (splitNl a).2 b
  rw [splitNl_snd_fixed a] at hp
  cases h : (splitNl b).1 with
  | nil =>
    rw [h] at hb hp
    simp only at hb hp
    rw [hb, hp]
    simp
  | cons l ls =>
    rw [h] at hb hp
    simp only at hb hp
    rw [hb, hp]
    simp

/-! ### Event extraction from one SSE line

For each complete line, streamChatMessage checks the `data: ` prefix,
slices off the first six characters, skips the line when the payload is
whitespace-only (the JavaScript truthiness test on the trimmed string),
and otherwise attempts `JSON.parse`; a parse failure is logged and the
line is skipped.  `JSON.parse` is a host builtin and is modelled as an
abstract fallible function `parse`. -/

/-- The events that the loop body of streamChatMessage delivers to
`onEvent` for a single complete line, given the JSON decoder `parse`. -/
def lineEvents (parse : Chars → Option ChatStreamEvent) (line : Chars) :
    List ChatStreamEvent :=
  if "data: ".toList.isPrefixOf line then
    let jsonStr := line.drop 6
    if jsonStr.any (fun c => !c.isWhitespace) then
      match parse jsonStr with
      | some e => [e]
      | none => []
    else []
  else []

/-- One iteration of the read loop in streamChatMessage: append the
decoded chunk to the buffer, split on newlines, retain the trailing
partial line, and deliver the events of each complete line in order.
Returns the new buffer and the delivered events. -/
def processChunk (parse : Chars → Option ChatStreamEvent) (buffer chunk : Chars) :
    Chars × List ChatStreamEvent :=
  let r := splitNl (buffer ++ chunk)
  (r.2, r.1.flatMap (lineEvents parse))

/-- The whole read loop of streamChatMessage over a sequence of decoded
chunks, starting from the empty buffer: returns the final buffer and all
events delivered to `onEvent`, in delivery order. -/
def processStream (parse : Chars → Option ChatStreamEvent) (chunks : List Chars) :
    Chars × List ChatStreamEvent :=
  chunks.foldl
    (fun acc chunk =>
      let r := processChunk parse acc.1 chunk
      (r.1, acc.2 ++ r.2))
    ([], [])

theorem processStream_nil (parse : Chars → Option ChatStreamEvent) :
    processStream parse [] = ([], []) := rfl

theorem processStream_go (parse : Chars → Option ChatStreamEvent) :
    ∀ (chunks : List Chars) (buf : Chars) (evts : List ChatStreamEvent),
      splitNl buf = ([], buf) →
      chunks.foldl
          (fun acc chunk =>
            let r := processChunk parse acc.1 chunk
            (r.1, acc.2 ++ r.2))
          (buf, evts) =
        ((splitNl (buf ++ chunks.flatten)).2,
         evts ++ (splitNl (buf ++ chunks.flatten)).1.flatMap (lineEvents parse)) := by
  intro chunks
  induction chunks with
  | nil =>
    intro buf evts hbuf
    simp [hbuf]
  | cons c rest ih =>
    intro buf evts hbuf
    have hres := splitNl_resume (buf ++ c) rest.flatten
    have hnext := ih (splitNl (buf ++ c)).2
      (evts ++ (splitNl (buf ++ c)).1.flatMap (lineEvents parse))
      (splitNl_snd_fixed (buf ++ c))
    simp only [List.foldl_cons, processChunk] at hnext ⊢
    rw [hnext]
    have hjoin : buf ++ (c :: rest).flatten = (buf ++ c) ++ rest.flatten := by
      simp
    rw [hjoin, hres.1, hres.2, List.flatMap_append, List.append_assoc]

/-- Chunk-by-chunk SSE parsing is equivalent to splitting the full byte
stream at once: the delivered events are exactly the decodings of the
complete (newline-terminated) lines, in the order those lines occur, and
the final buffer is the trailing text not terminated by a newline. -/
theorem processStream_eq_split_join (parse : Chars → Option ChatStreamEvent)
    (chunks : List Chars) :
    processStream parse chunks =
      ((splitNl chunks.flatten).2,
       (splitNl chunks.flatten).1.flatMap (lineEvents parse)) := by
  have h := processStream_go parse chunks [] [] rfl
  simpa [processStream] using h

/-- C1: for every sequence of decoded chunks delivered to the SSE read
loop of streamChatMessage, the events handed to `onEvent` are exactly the
decodings of the complete (newline-terminated) lines of the concatenated
stream, in the order those lines appear (no reordering); the trailing
text not terminated by a newline is retained in the buffer (and thus only
decoded once a later chunk completes the line), and that buffer never
contains a newline. -/
theorem sse_parser_delivers_complete_lines_in_order
    (parse : Chars → Option ChatStreamEvent) (chunks : List Chars) :
    (processStream parse chunks).2 = (splitNl chunks.flatten).1.flatMap (lineEvents parse)
  ∧ (processStream parse chunks).1 = (splitNl chunks.flatten).2
  ∧ '\n' ∉ (processStream parse chunks).1 := by
  have h := processStream_eq_split_join parse chunks
  refine ⟨by rw [h], by rw [h], ?_⟩
  rw [h]
  exact splitNl_newline_not_mem_snd chunks.flatten

/-- C4: a line that begins with `data: ` but whose payload does not parse
as JSON is skipped without delivering an event, and every other
well-formed line of the same stream, before or after it, is still decoded
and delivered; the malformed line never aborts the stream. -/
theorem malformed_line_skipped
    (parse : Chars → Option ChatStreamEvent) (chunks : List Chars)
    (pre post : List Chars) (bad : Chars)
    (hlines : (splitNl chunks.flatten).1 = pre ++ bad :: post)
    (_hstart : "data: ".toList.isPrefixOf bad = true)
    (hparse : parse (bad.drop 6) = none) :
    (processStream parse chunks).2 =
      pre.flatMap (lineEvents parse) ++ post.flatMap (lineEvents parse) := by
  have h := processStream_eq_split_join parse chunks
  have hbad : lineEvents parse bad = [] := by
    simp [lineEvents, hparse]
  rw [h]
  simp only [hlines, List.flatMap_append, List.flatMap_cons, hbad, List.nil_append]

/-- A concrete JSON decoder used only to instantiate witnesses: it
decodes the payload consisting of a pair of braces and rejects anything
else. -/
def toyParse : Chars → Option ChatStreamEvent :=
  fun s =>
    if s = ['\x7b', '\x7d'] then some { type := EventType.start } else none

theorem malformed_line_skipped_witness :
    ((splitNl (["data: \x7b\x7d\nda".toList, "ta: oops\ndata: \x7b\x7d\n".toList]).flatten).1 =
        ["data: \x7b\x7d".toList] ++ "data: oops".toList :: ["data: \x7b\x7d".toList])
  ∧ ("data: ".toList.isPrefixOf ("data: oops".toList) = true)
  ∧ (toyParse ("data: oops".toList.drop 6) = none)
  ∧ (processStream toyParse ["data: \x7b\x7d\nda".toList, "ta: oops\ndata: \x7b\x7d\n".toList]).2 =
      ["data: \x7b\x7d".toList].flatMap (lineEvents toyParse) ++
        ["data: \x7b\x7d".toList].flatMap (lineEvents toyParse) :=
  ⟨by decide, by decide, by decide,
    malformed_line_skipped toyParse
      ["data: \x7b\x7d\nda".toList, "ta: oops\ndata: \x7b\x7d\n".toList]
      ["data: \x7b\x7d".toList] ["data: \x7b\x7d".toList] ("data: oops".toList)
      (by decide) (by decide) (by decide)⟩

/-! ### Cancellation of the SSE stream

The `fetchSSE` loop of streamChatMessage runs inside a try/catch.  The
returned `cancel` function aborts the request controller; the pending
`reader.read()` then rejects with an abort error, which the catch clause
recognises by name and swallows without emitting anything; any other
exception is logged and surfaced as an `error` event.  A read-loop run is
modelled as a sequence of read outcomes. -/

/-- Outcome of one `await reader.read()` (or of the fetch itself):
a decoded chunk, a clean end of stream, a rejection with the abort error
raised by `controller.abort()`, or a rejection with any other error. -/
inductive ReadStep where
  | chunk (text : Chars)
  | done
  | abortError
  | failure (msg : String)
  deriving DecidableEq, Repr

/-- The events delivered to `onEvent` by the try/catch body of
`fetchSSE`, given the read outcomes in order: chunks are parsed
incrementally, a clean end stops the loop, an abort rejection stops the
loop and is swallowed by the catch clause (its name check), and any other
rejection stops the loop and emits one final `error` event. -/
def runStream (parse : Chars → Option ChatStreamEvent) :
    Chars → List ReadStep → List ChatStreamEvent
  | _, [] => []
  | buf, ReadStep.chunk s :: rest =>
      (processChunk parse buf s).2 ++ runStream parse (processChunk parse buf s).1 rest
  | _, ReadStep.done :: _ => []
  | _, ReadStep.abortError :: _ => []
  | _, ReadStep.failure m :: _ => [{ type := EventType.error, message := some m }]

theorem runStream_all_chunks_append (parse : Chars → Option ChatStreamEvent)
    (pre : List ReadStep) :
    ∀ (buf : Chars) (post : List ReadStep),
      (∀ s ∈ pre, ∃ c, s = ReadStep.chunk c) →
      ∃ buf2, runStream parse buf (pre ++ post) =
        runStream parse buf pre ++ runStream parse buf2 post := by
  induction pre with
  | nil =>
    intro buf post _
    exact ⟨buf, by simp [runStream]⟩
  | cons s rest ih =>
    intro buf post hpre
    obtain ⟨c, rfl⟩ := hpre s (List.mem_cons_self s rest)
    have hrest : ∀ x ∈ rest, ∃ c, x = ReadStep.chunk c :=
      fun x hx => hpre x (List.mem_cons_of_mem _ hx)
    obtain ⟨buf2, h⟩ := ih (processChunk parse buf c).1 post hrest
    refine ⟨buf2, ?_⟩
    simp only [List.cons_append, runStream, List.append_eq, h, List.append_assoc]

/-- C3: cancelling the stream at any point before the end event stops all
further event processing without a crash: after any prefix of ordinary
chunks, an abort rejection delivers exactly the events already decoded
from that prefix — the same events as a cleanly closed stream — and, in
contrast with any other failure, adds no `error` event for the abort. -/
theorem cancel_stops_event_processing (parse : Chars → Option ChatStreamEvent)
    (buf : Chars) (pre post : List ReadStep)
    (hpre : ∀ s ∈ pre, ∃ c, s = ReadStep.chunk c) :
    runStream parse buf (pre ++ ReadStep.abortError :: post) = runStream parse buf pre
  ∧ runStream parse buf (pre ++ ReadStep.abortError :: post) =
      runStream parse buf (pre ++ [ReadStep.done])
  ∧ ∀ m, runStream parse buf (pre ++ [ReadStep.failure m]) =
      runStream parse buf pre ++ [{ type := EventType.error, message := some m }] := by
  obtain ⟨b1, h1⟩ := runStream_all_chunks_append parse pre buf (ReadStep.abortError :: post) hpre
  obtain ⟨b2, h2⟩ := runStream_all_chunks_append parse pre buf [ReadStep.done] hpre
  refine ⟨?_, ?_, ?_⟩
  · rw [h1]
    simp [runStream]
  · rw [h1, h2]
    simp [runStream]
  · intro m
    obtain ⟨b3, h3⟩ := runStream_all_chunks_append parse pre buf [ReadStep.failure m] hpre
    rw [h3]
    simp [runStream]

theorem cancel_stops_event_processing_witness :
    (∀ s ∈ [ReadStep.chunk ("data: \x7b\x7d\n".toList)], ∃ c, s = ReadStep.chunk c)
  ∧ runStream toyParse []
        ([ReadStep.chunk ("data: \x7b\x7d\n".toList)] ++
          ReadStep.abortError :: [ReadStep.failure "late"]) =
      runStream toyParse [] [ReadStep.chunk ("data: \x7b\x7d\n".toList)] := by
  have hpre : ∀ s ∈ [ReadStep.chunk ("data: \x7b\x7d\n".toList)], ∃ c, s = ReadStep.chunk c := by
    intro s hs
    rw [List.mem_singleton] at hs
    exact ⟨_, hs⟩
  exact ⟨hpre,
    (cancel_stops_event_processing toyParse [] _ [ReadStep.failure "late"] hpre).1⟩

/-! ### The Reports page: background-report polling (pages/Reports.tsx)

The component state relevant to the claims is the page topic and report
type (used as fallbacks when recording a finished report), the loading
flag, the progress message, the error message, the list of generated
reports, and whether the polling interval registered by pollStatus is
still running.  Each firing of the interval callback receives either an
API response (whose `data` may be absent) or a thrown request error. -/

/-- The task status strings of `ReportTaskStatus` in services/api.ts. -/
inductive TaskStatusKind where
  | pending
  | processing
  | completed
  | failed
  deriving DecidableEq, Repr

/-- The `ReportGenerationResult` interface of services/api.ts (fields
used by the Reports page; string fields are plain strings whose
JavaScript truthiness is the nonemptiness test). -/
structure ReportGenerationResult where
  report_filename : String
  report_path : String := ""
  topic : String := ""
  report_type : String := ""
  format : String := ""
  deriving DecidableEq, Repr

/-- The `ReportTaskStatus` interface of services/api.ts. -/
structure ReportTaskStatus where
  status : TaskStatusKind
  progress : Option Nat := none
  message : Option String := none
  result : Option ReportGenerationResult := none
  error : Option String := none
  deriving DecidableEq, Repr

/-- One entry of the `GeneratedReport` list of the Reports page (the
wall-clock `generatedAt` timestamp is outside the model). -/
structure GeneratedReport where
  filename : String
  topic : String
  type : String
  deriving DecidableEq, Repr

/-- The Reports component state touched by the polling callback. -/
structure ReportsState where
  topic : String
  reportType : String
  isGenerating : Bool
  pollingStatus : String
  error : Option String
  generatedReports : List GeneratedReport
  intervalActive : Bool
  deriving DecidableEq, Repr

/-- What one firing of the polling callback observes: the response of
getReportTaskStatus (whose `data` field may be absent), or a thrown
request error (network failure, non-2xx HTTP status rejected by axios). -/
inductive PollOutcome where
  | response (data : Option ReportTaskStatus)
  | thrown
  deriving DecidableEq, Repr

/-- The polling interval of pollStatus, in milliseconds. -/
def pollIntervalMs : Nat := 10000

/-- One firing of the interval callback registered by pollStatus: a
thrown request is caught and ignored (the loop is not stopped); a
response without data returns early; `completed` clears the interval,
stops the loading state and, when the result carries a filename,
prepends the finished report (with the page topic and report type as
fallbacks) and clears the topic field; `failed` clears the interval,
stops the loading state and records the error; any other status only
updates the progress message. -/
def pollTick (s : ReportsState) (r : PollOutcome) : ReportsState :=
  match r with
  | PollOutcome.thrown => s
  | PollOutcome.response none => s
  | PollOutcome.response (some task) =>
    match task.status with
    | TaskStatusKind.completed =>
      let s1 := { s with intervalActive := false, isGenerating := false, pollingStatus := "" }
      match task.result with
      | some res =>
        if res.report_filename = "" then s1
        else
          { s1 with
              generatedReports :=
                { filename := res.report_filename,
                  topic := jsOr res.topic s.topic,
                  type := jsOr res.report_type s.reportType } :: s1.generatedReports,
              topic := "" }
      | none => s1
    | TaskStatusKind.failed =>
      { s with intervalActive := false, isGenerating := false, pollingStatus := "",
               error := some (jsOrElse task.error "Report generation failed") }
    | _ => { s with pollingStatus := jsOrElse task.message "Processing..." }

/-- Whether a poll outcome is a response with a terminal task status. -/
def isTerminalPoll : PollOutcome → Bool
  | PollOutcome.response (some task) =>
    match task.status with
    | TaskStatusKind.completed => true
    | TaskStatusKind.failed => true
    | _ => false
  | _ => false

theorem pollTick_nonterminal_keeps_interval (s : ReportsState) (r : PollOutcome)
    (h : isTerminalPoll r = false) :
    (pollTick s r).intervalActive = s.intervalActive := by
  cases r with
  | thrown => rfl
  | response d =>
    cases d with
    | none => rfl
    | some task =>
      cases htask : task.status with
      | completed => simp [isTerminalPoll, htask] at h
      | failed => simp [isTerminalPoll, htask] at h
      | pending => simp [pollTick, htask]
      | processing => simp [pollTick, htask]

theorem pollTick_completed_stops (s : ReportsState) (task : ReportTaskStatus)
    (htask : task.status = TaskStatusKind.completed) :
    (pollTick s (PollOutcome.response (some task))).intervalActive = false
  ∧ (pollTick s (PollOutcome.response (some task))).isGenerating = false
  ∧ (pollTick s (PollOutcome.response (some task))).pollingStatus = "" := by
  cases hres : task.result with
  | none => simp [pollTick, htask, hres]
  | some res =>
    by_cases hfn : res.report_filename = ""
    · simp [pollTick, htask, hres, hfn]
    · simp [pollTick, htask, hres, hfn]

theorem pollTick_failed_stops (s : ReportsState) (task : ReportTaskStatus)
    (htask : task.status = TaskStatusKind.failed) :
    (pollTick s (PollOutcome.response (some task))).intervalActive = false
  ∧ (pollTick s (PollOutcome.response (some task))).isGenerating = false
  ∧ (pollTick s (PollOutcome.response (some task))).error =
      some (jsOrElse task.error "Report generation failed") := by
  simp [pollTick, htask]

theorem foldl_pollTick_nonterminal (rs : List PollOutcome) :
    ∀ s : ReportsState, s.intervalActive = true →
      (∀ x ∈ rs, isTerminalPoll x = false) →
      (rs.foldl pollTick s).intervalActive = true := by
  induction rs with
  | nil =>
    intro s hs _
    simpa using hs
  | cons r rest ih =>
    intro s hs hn
    rw [List.foldl_cons]
    refine ih _ ?_ (fun x hx => hn x (List.mem_cons_of_mem _ hx))
    rw [pollTick_nonterminal_keeps_interval s r (hn r (List.mem_cons_self r rest))]
    exact hs

/-- C2: the polling loop started by pollStatus fires at a fixed ten
second interval and stops only on a terminal status: a `completed`
response clears the interval, stops the loading state, blanks the
progress message and, when the result payload carries a filename,
surfaces the finished report at the head of the list; a `failed` response
clears the interval, stops the loading state and surfaces the error; any
other response keeps the interval and displays the latest progress
message; a thrown poll request leaves the state untouched, and no run of
non-terminal outcomes, however long, ever stops the interval. -/
theorem poll_status_contract (s : ReportsState) (r : PollOutcome)
    (hact : s.intervalActive = true) :
    pollIntervalMs = 10000
  ∧ ((pollTick s r).intervalActive = false ↔
      ∃ task, r = PollOutcome.response (some task) ∧
        (task.status = TaskStatusKind.completed ∨ task.status = TaskStatusKind.failed))
  ∧ (∀ task, r = PollOutcome.response (some task) →
      task.status = TaskStatusKind.completed →
        (pollTick s r).isGenerating = false ∧ (pollTick s r).pollingStatus = ""
      ∧ ∀ res, task.result = some res → res.report_filename ≠ "" →
          (pollTick s r).generatedReports =
            { filename := res.report_filename, topic := jsOr res.topic s.topic,
              type := jsOr res.report_type s.reportType } :: s.generatedReports)
  ∧ (∀ task, r = PollOutcome.response (some task) →
      task.status = TaskStatusKind.failed →
        (pollTick s r).isGenerating = false
      ∧ (pollTick s r).error = some (jsOrElse task.error "Report generation failed"))
  ∧ (∀ task, r = PollOutcome.response (some task) →
      task.status ≠ TaskStatusKind.completed → task.status ≠ TaskStatusKind.failed →
        (pollTick s r).intervalActive = true
      ∧ (pollTick s r).pollingStatus = jsOrElse task.message "Processing...")
  ∧ (r = PollOutcome.thrown → pollTick s r = s)
  ∧ ∀ rs : List PollOutcome, (∀ x ∈ rs, isTerminalPoll x = false) →
      (rs.foldl pollTick s).intervalActive = true := by
  refine ⟨rfl, ?_, ?_, ?_, ?_, fun h => by rw [h]; rfl,
    fun rs hn => foldl_pollTick_nonterminal rs s hact hn⟩
  · constructor
    · intro hoff
      cases r with
      | thrown => rw [show pollTick s PollOutcome.thrown = s from rfl, hact] at hoff; cases hoff
      | response d =>
        cases d with
        | none =>
          rw [show pollTick s (PollOutcome.response none) = s from rfl, hact] at hoff
          cases hoff
        | some task =>
          cases htask : task.status with
          | completed => exact ⟨task, rfl, Or.inl htask⟩
          | failed => exact ⟨task, rfl, Or.inr htask⟩
          | pending =>
            rw [pollTick_nonterminal_keeps_interval s _ (by simp [isTerminalPoll, htask]),
              hact] at hoff
            cases hoff
          | processing =>
            rw [pollTick_nonterminal_keeps_interval s _ (by simp [isTerminalPoll, htask]),
              hact] at hoff
            cases hoff
    · rintro ⟨task, rfl, htask | htask⟩
      · exact (pollTick_completed_stops s task htask).1
      · exact (pollTick_failed_stops s task htask).1
  · rintro task rfl htask
    refine ⟨(pollTick_completed_stops s task htask).2.1,
      (pollTick_completed_stops s task htask).2.2, ?_⟩
    intro res hres hfn
    simp [pollTick, htask, hres, hfn]
  · rintro task rfl htask
    exact ⟨(pollTick_failed_stops s task htask).2.1, (pollTick_failed_stops s task htask).2.2⟩
  · rintro task rfl hc hf
    cases htask : task.status with
    | completed => exact absurd htask hc
    | failed => exact absurd htask hf
    | pending => refine ⟨?_, by simp [pollTick, htask]⟩; simp [pollTick, htask, hact]
    | processing => refine ⟨?_, by simp [pollTick, htask]⟩; simp [pollTick, htask, hact]

theorem poll_status_contract_witness :
    (({ topic := "Fintech", reportType := "market_research", isGenerating := true,
        pollingStatus := "Processing...", error := none, generatedReports := [],
        intervalActive := true } : ReportsState).intervalActive = true)
  ∧ (pollTick
        { topic := "Fintech", reportType := "market_research", isGenerating := true,
          pollingStatus := "Processing...", error := none, generatedReports := [],
          intervalActive := true }
        PollOutcome.thrown =
      { topic := "Fintech", reportType := "market_research", isGenerating := true,
        pollingStatus := "Processing...", error := none, generatedReports := [],
        intervalActive := true }) :=
  ⟨by decide,
    (poll_status_contract
      { topic := "Fintech", reportType := "market_research", isGenerating := true,
        pollingStatus := "Processing...", error := none, generatedReports := [],
        intervalActive := true }
      PollOutcome.thrown (by decide)).2.2.2.2.2.1 rfl⟩

/-- C5: what the polling client actually does when the status lookup for
an expired or unknown task identifier fails: a thrown request (axios
rejects the 404) and a response without a task payload both leave the
component state completely unchanged — the interval stays registered and
the loading state stays on.  The Reports page has no state in which a
not-found lookup is surfaced, so it keeps polling indefinitely instead of
reaching a terminal UI state. -/
theorem not_found_lookup_keeps_polling (s : ReportsState) :
    pollTick s PollOutcome.thrown = s
  ∧ pollTick s (PollOutcome.response none) = s :=
  ⟨rfl, rfl⟩

/-! ### Report submission validation (handleGenerate, Reports.tsx) -/

/-- What handleGenerate does before any asynchronous work: either it
rejects synchronously (sets an error message and returns, issuing no
request), or it submits the request body given to
generateReportBackground. -/
inductive GenerateAction where
  | rejected (errorMsg : String)
  | submitted (topic report_type format : String) (use_langgraph : Bool)
  deriving DecidableEq, Repr

/-- The synchronous decision of handleGenerate: a topic whose trim is
empty (JavaScript falsy) is rejected with the message shown to the user;
otherwise the trimmed topic, the selected report type and format, and
`use_langgraph: true` are submitted to generateReportBackground. -/
def handleGenerate (topic reportType format : String) : GenerateAction :=
  if jsTrim topic = "" then GenerateAction.rejected "Please enter a topic"
  else GenerateAction.submitted (jsTrim topic) reportType format true

/-- C6: a submission whose topic is empty or all whitespace is rejected
synchronously: handleGenerate produces the error message and no
submission to generateReportBackground happens, so no HTTP request is
issued and no task identifier can be allocated. -/
theorem empty_topic_rejected_synchronously (topic reportType format : String)
    (h : jsTrim topic = "") :
    handleGenerate topic reportType format = GenerateAction.rejected "Please enter a topic"
  ∧ ∀ t rt f u, handleGenerate topic reportType format ≠ GenerateAction.submitted t rt f u := by
  refine ⟨by simp [handleGenerate, h], ?_⟩
  intro t rt f u
  simp [handleGenerate, h]

theorem empty_topic_rejected_synchronously_witness :
    (jsTrim "   " = "")
  ∧ handleGenerate "   " "comprehensive" "pdf" = GenerateAction.rejected "Please enter a topic" :=
  ⟨by decide, (empty_topic_rejected_synchronously "   " "comprehensive" "pdf" (by decide)).1⟩

/-! ### Interval bookkeeping of the Reports page

`pollingIntervalRef` holds the identifier returned by the last
`window.setInterval`; pollStatus clears the previously referenced
interval before registering a new one, the `completed`/`failed` branches
of a tick clear the referenced interval, and the component's unmount
cleanup clears it as well.  The browser timer table is modelled as the
list of currently active interval identifiers; fresh identifiers are
drawn from a counter (browser interval identifiers are nonzero, so the
JavaScript truthiness test on the ref is modelled by option presence). -/

/-- The browser timer table and the component's interval ref. -/
structure TimerWorld where
  nextId : Nat
  active : List Nat
  refCurrent : Option Nat
  deriving DecidableEq, Repr

/-- `window.clearInterval(i)`: deactivates the interval `i` (a no-op if
`i` is not active). -/
def clearIntervalW (w : TimerWorld) (i : Nat) : TimerWorld :=
  { w with active := w.active.erase i }

/-- `window.setInterval(...)`: registers a fresh interval and returns its
identifier. -/
def setIntervalW (w : TimerWorld) : TimerWorld × Nat :=
  ({ w with nextId := w.nextId + 1, active := w.nextId :: w.active }, w.nextId)

/-- The prologue of pollStatus: clear the previously referenced interval
if any, register a new one and store its identifier in the ref. -/
def pollStatusStart (w : TimerWorld) : TimerWorld :=
  let w1 := match w.refCurrent with
    | some i => clearIntervalW w i
    | none => w
  let p := setIntervalW w1
  { p.1 with refCurrent := some p.2 }

/-- The clearInterval call guarded by the ref in the `completed` and
`failed` branches of the polling callback (the ref itself is not
reset there). -/
def terminalTickClear (w : TimerWorld) : TimerWorld :=
  match w.refCurrent with
  | some i => clearIntervalW w i
  | none => w

/-- The unmount cleanup of the component's useEffect: clear the
referenced interval if any. -/
def unmountCleanup (w : TimerWorld) : TimerWorld :=
  match w.refCurrent with
  | some i => clearIntervalW w i
  | none => w

/-- Every timer operation the Reports page performs. -/
inductive ReportsTimerOp where
  | startPolling
  | terminalTick
  | unmount
  deriving DecidableEq, Repr

def applyTimerOp (w : TimerWorld) : ReportsTimerOp → TimerWorld
  | ReportsTimerOp.startPolling => pollStatusStart w
  | ReportsTimerOp.terminalTick => terminalTickClear w
  | ReportsTimerOp.unmount => unmountCleanup w

/-- The mounted component: no interval yet (identifier counter starts
at 1, as browser interval identifiers are nonzero). -/
def initialTimerWorld : TimerWorld :=
  { nextId := 1, active := [], refCurrent := none }

/-- Timer invariant of the Reports page: at most one interval is active,
any active interval is the referenced one, and all active identifiers
are below the freshness counter. -/
def TimerInv (w : TimerWorld) : Prop :=
  w.active.length ≤ 1
  ∧ (∀ i ∈ w.active, w.refCurrent = some i)
  ∧ ∀ i ∈ w.active, i < w.nextId

theorem timerInv_initial : TimerInv initialTimerWorld := by
  refine ⟨by simp [initialTimerWorld], ?_, ?_⟩ <;> simp [initialTimerWorld]

theorem timerInv_active_eq (w : TimerWorld) (hw : TimerInv w) :
    w.active = [] ∨ ∃ i, w.active = [i] ∧ w.refCurrent = some i := by
  obtain ⟨hlen, href, _⟩ := hw
  cases h : w.active with
  | nil => exact Or.inl rfl
  | cons i rest =>
    cases rest with
    | nil => exact Or.inr ⟨i, rfl, href i (by rw [h]; exact List.mem_cons_self i [])⟩
    | cons j rest2 =>
      rw [h] at hlen
      simp at hlen

theorem timerInv_clear_ref (w : TimerWorld) (hw : TimerInv w) :
    ∀ i, w.refCurrent = some i → (clearIntervalW w i).active = [] := by
  intro i hi
  rcases timerInv_active_eq w hw with h | ⟨j, hj, hjref⟩
  · simp [clearIntervalW, h]
  · rw [hi] at hjref
    injection hjref with hij
    simp [clearIntervalW, hj, hij]

theorem timerInv_preserved (w : TimerWorld) (op : ReportsTimerOp) (hw : TimerInv w) :
    TimerInv (applyTimerOp w op) := by
  cases op with
  | startPolling =>
    have hclear : (match w.refCurrent with
        | some i => clearIntervalW w i
        | none => w).active = [] := by
      cases href : w.refCurrent with
      | none =>
        rcases timerInv_active_eq w hw with h | ⟨j, hj, hjref⟩
        · simpa using h
        · rw [href] at hjref
          cases hjref
      | some i => simpa using timerInv_clear_ref w hw i href
    refine ⟨?_, ?_, ?_⟩ <;>
      simp [applyTimerOp, pollStatusStart, setIntervalW, hclear]
  | terminalTick =>
    cases href : w.refCurrent with
    | none =>
      have : applyTimerOp w ReportsTimerOp.terminalTick = w := by
        simp [applyTimerOp, terminalTickClear, href]
      rw [this]
      exact hw
    | some i =>
      have hact : (clearIntervalW w i).active = [] := timerInv_clear_ref w hw i href
      have : applyTimerOp w ReportsTimerOp.terminalTick = clearIntervalW w i := by
        simp [applyTimerOp, terminalTickClear, href]
      rw [this]
      refine ⟨by rw [hact]; simp, ?_, ?_⟩ <;> simp [hact]
  | unmount =>
    cases href : w.refCurrent with
    | none =>
      have : applyTimerOp w ReportsTimerOp.unmount = w := by
        simp [applyTimerOp, unmountCleanup, href]
      rw [this]
      exact hw
    | some i =>
      have hact : (clearIntervalW w i).active = [] := timerInv_clear_ref w hw i href
      have : applyTimerOp w ReportsTimerOp.unmount = clearIntervalW w i := by
        simp [applyTimerOp, unmountCleanup, href]
      rw [this]
      refine ⟨by rw [hact]; simp, ?_, ?_⟩ <;> simp [hact]

theorem timerInv_foldl (ops : List ReportsTimerOp) :
    ∀ w : TimerWorld, TimerInv w → TimerInv (ops.foldl applyTimerOp w) := by
  induction ops with
  | nil => intro w hw; simpa using hw
  | cons op rest ih =>
    intro w hw
    rw [List.foldl_cons]
    exact ih _ (timerInv_preserved w op hw)

/-- C10: after any sequence of the timer operations the Reports page can
perform (starting a poll, a terminal tick clearing its interval, the
unmount cleanup), at most one polling interval is active, and if the
last operation is the unmount cleanup no interval remains active at all:
a second submission or leaving the page never leaves two concurrent
pollers or a leaked timer. -/
theorem at_most_one_polling_interval (ops : List ReportsTimerOp) :
    (ops.foldl applyTimerOp initialTimerWorld).active.length ≤ 1
  ∧ ((ops ++ [ReportsTimerOp.unmount]).foldl applyTimerOp initialTimerWorld).active = [] := by
  have hinv := timerInv_foldl ops initialTimerWorld timerInv_initial
  refine ⟨hinv.1, ?_⟩
  rw [List.foldl_append]
  simp only [List.foldl_cons, List.foldl_nil]
  set w := ops.foldl applyTimerOp initialTimerWorld with hw
  cases href : w.refCurrent with
  | none =>
    rcases timerInv_active_eq w hinv with h | ⟨j, hj, hjref⟩
    · simpa [applyTimerOp, unmountCleanup, href] using h
    · rw [href] at hjref
      cases hjref
  | some i =>
    have := timerInv_clear_ref w hinv i href
    simpa [applyTimerOp, unmountCleanup, href] using this

/-! ### Report download URLs (downloadReport, services/api.ts) -/

/-- The downloadReport function: the download URL built from the API
base URL and the stored filename by string concatenation alone. -/
def downloadReport (apiBaseUrl : String) (filename : String) : String :=
  apiBaseUrl ++ "/api/v1/download-report/" ++ filename

/-- C8: downloadReport is a pure deterministic function of its filename:
the returned URL is exactly the API base URL followed by the download
route and the filename, so equal filenames always map to equal URLs and
no further state is consulted. -/
theorem downloadReport_deterministic (apiBaseUrl f1 f2 : String) :
    downloadReport apiBaseUrl f1 = apiBaseUrl ++ "/api/v1/download-report/" ++ f1
  ∧ (f1 = f2 → downloadReport apiBaseUrl f1 = downloadReport apiBaseUrl f2) :=
  ⟨rfl, fun h => by rw [h]⟩

theorem downloadReport_deterministic_witness :
    ("fintech.pdf" : String) = "fintech.pdf"
  ∧ downloadReport "http://localhost:8000" "fintech.pdf" =
      downloadReport "http://localhost:8000" "fintech.pdf" :=
  ⟨rfl, (downloadReport_deterministic "http://localhost:8000" "fintech.pdf" "fintech.pdf").2 rfl⟩

/-! ### Company search query parameters (searchCompanies, services/api.ts)

searchCompanies builds the `params` object sent with GET /companies:
`query` and `limit` are always present (the limit parameter defaults to
50), and each optional filter is added behind a JavaScript truthiness
guard, with industry additionally compared case-insensitively against
the string `all`. -/

/-- JavaScript `s.toLowerCase()` (ASCII case folding of the host
function is modelled by `Char.toLower`). -/
def jsToLower (s : String) : String :=
  ⟨s.data.map Char.toLower⟩

/-- The `CompanySearchFilters` interface of services/api.ts. -/
structure CompanySearchFilters where
  industry : Option String := none
  location : Option String := none
  min_year : Option Nat := none
  stage : Option String := none
  deriving DecidableEq, Repr

/-- The query parameters of the GET /companies request: `query` and
`limit` always, each filter only when its guard passed. -/
structure CompanySearchParams where
  query : String
  limit : Nat
  industry : Option String := none
  location : Option String := none
  min_year : Option Nat := none
  stage : Option String := none
  deriving DecidableEq, Repr

/-- The default of the `limit` parameter of searchCompanies. -/
def searchCompaniesDefaultLimit : Nat := 50

/-- The params object built by searchCompanies: industry is added when
present, truthy (nonempty) and not `all` after lower-casing; location
and stage when present and truthy; min_year when present and truthy
(nonzero, as 0 is falsy in JavaScript). -/
def searchCompaniesParams (query : String) (limit : Nat)
    (filters : Option CompanySearchFilters) : CompanySearchParams :=
  { query := query
    limit := limit
    industry :=
      match filters with
      | some f =>
        match f.industry with
        | some s => if s ≠ "" ∧ jsToLower s ≠ "all" then some s else none
        | none => none
      | none => none
    location :=
      match filters with
      | some f =>
        match f.location with
        | some s => if s ≠ "" then some s else none
        | none => none
      | none => none
    min_year :=
      match filters with
      | some f =>
        match f.min_year with
        | some n => if n ≠ 0 then some n else none
        | none => none
      | none => none
    stage :=
      match filters with
      | some f =>
        match f.stage with
        | some s => if s ≠ "" then some s else none
        | none => none
      | none => none }

/-- C9 counterexample: a filters object that provides a location (the
empty string) and a min_year (zero) produces a request carrying neither
parameter, so an optional filter is not included whenever it is
provided — JavaScript truthiness drops falsy provided values. -/
theorem searchCompanies_provided_filter_dropped :
    (searchCompaniesParams "ai" 50
        (some { industry := none, location := some "", min_year := some 0,
                stage := none })).location = none
  ∧ (searchCompaniesParams "ai" 50
        (some { industry := none, location := some "", min_year := some 0,
                stage := none })).min_year = none
  ∧ ({ industry := none, location := some "", min_year := some 0,
       stage := none } : CompanySearchFilters).location ≠ none :=
  ⟨rfl, rfl, by decide⟩

/-- C9 amended: every request carries the free-text query and the
result-bounding limit (whose default is 50), and each optional filter is
included exactly when it is provided with a truthy value: industry when
provided, nonempty and not `all` under case-insensitive comparison;
location and stage when provided and nonempty; min_year when provided
and nonzero. -/
theorem searchCompanies_params_included_iff (query : String) (limit : Nat)
    (filters : Option CompanySearchFilters) :
    searchCompaniesDefaultLimit = 50
  ∧ (searchCompaniesParams query limit filters).query = query
  ∧ (searchCompaniesParams query limit filters).limit = limit
  ∧ (∀ s, (searchCompaniesParams query limit filters).industry = some s ↔
      ∃ f, filters = some f ∧ f.industry = some s ∧ s ≠ "" ∧ jsToLower s ≠ "all")
  ∧ (∀ s, (searchCompaniesParams query limit filters).location = some s ↔
      ∃ f, filters = some f ∧ f.location = some s ∧ s ≠ "")
  ∧ (∀ n, (searchCompaniesParams query limit filters).min_year = some n ↔
      ∃ f, filters = some f ∧ f.min_year = some n ∧ n ≠ 0)
  ∧ (∀ s, (searchCompaniesParams query limit filters).stage = some s ↔
      ∃ f, filters = some f ∧ f.stage = some s ∧ s ≠ "") := by
  refine ⟨rfl, rfl, rfl, ?_, ?_, ?_, ?_⟩
  · intro s
    cases filters with
    | none => simp [searchCompaniesParams]
    | some f =>
      cases hind : f.industry with
      | none => simp [searchCompaniesParams, hind]
      | some s0 =>
        by_cases hcond : s0 ≠ "" ∧ jsToLower s0 ≠ "all"
        · simp only [searchCompaniesParams, hind, if_pos hcond, Option.some.injEq]
          constructor
          · rintro rfl
            exact ⟨f, rfl, hind, hcond.1, hcond.2⟩
          · rintro ⟨f2, hf2, hior, _, _⟩
            subst hf2
            rw [hind] at hior
            injection hior
        · simp only [searchCompaniesParams, hind, if_neg hcond]
          constructor
          · rintro h
            cases h
          · rintro ⟨f2, hf2, hior, h1, h2⟩
            injection hf2 with hf2
            subst hf2
            rw [hind] at hior
            injection hior with h
            exact absurd (h ▸ ⟨h1, h2⟩) hcond
  · intro s
    cases filters with
    | none => simp [searchCompaniesParams]
    | some f =>
      cases hloc : f.location with
      | none => simp [searchCompaniesParams, hloc]
      | some s0 =>
        by_cases hcond : s0 = ""
        · simp only [searchCompaniesParams, hloc, hcond, ne_eq, not_true, if_false]
          constructor
          · rintro h
            cases h
          · rintro ⟨f2, hf2, hior, h1⟩
            injection hf2 with hf2
            subst hf2
            rw [hloc] at hior
            injection hior with h
            exact absurd (h ▸ hcond) h1
        · simp only [searchCompaniesParams, hloc, ne_eq, hcond, not_false_iff, if_true,
            Option.some.injEq]
          constructor
          · rintro rfl
            exact ⟨f, rfl, hloc, hcond⟩
          · rintro ⟨f2, hf2, hior, _⟩
            subst hf2
            rw [hloc] at hior
            injection hior
  · intro n
    cases filters with
    | none => simp [searchCompaniesParams]
    | some f =>
      cases hmy : f.min_year with
      | none => simp [searchCompaniesParams, hmy]
      | some n0 =>
        by_cases hcond : n0 = 0
        · simp only [searchCompaniesParams, hmy, hcond, ne_eq, not_true, if_false]
          constructor
          · rintro h
            cases h
          · rintro ⟨f2, hf2, hior, h1⟩
            injection hf2 with hf2
            subst hf2
            rw [hmy] at hior
            injection hior with h
            exact absurd (h ▸ hcond) h1
        · simp only [searchCompaniesParams, hmy, ne_eq, hcond, not_false_iff, if_true,
            Option.some.injEq]
          constructor
          · rintro rfl
            exact ⟨f, rfl, hmy, hcond⟩
          · rintro ⟨f2, hf2, hior, _⟩
            subst hf2
            rw [hmy] at hior
            injection hior
  · intro s
    cases filters with
    | none => simp [searchCompaniesParams]
    | some f =>
      cases hst : f.stage with
      | none => simp [searchCompaniesParams, hst]
      | some s0 =>
        by_cases hcond : s0 = ""
        · simp only [searchCompaniesParams, hst, hcond, ne_eq, not_true, if_false]
          constructor
          · rintro h
            cases h
          · rintro ⟨f2, hf2, hior, h1⟩
            injection hf2 with hf2
            subst hf2
            rw [hst] at hior
            injection hior with h
            exact absurd (h ▸ hcond) h1
        · simp only [searchCompaniesParams, hst, ne_eq, hcond, not_false_iff, if_true,
            Option.some.injEq]
          constructor
          · rintro rfl
            exact ⟨f, rfl, hst, hcond⟩
          · rintro ⟨f2, hf2, hior, _⟩
            subst hf2
            rw [hst] at hior
            injection hior

/-- A concrete filters value used only by the witness below. -/
def bostonFilters : CompanySearchFilters :=
  { industry := none, location := some "Boston", min_year := none, stage := none }

theorem searchCompanies_params_included_iff_witness :
    (∃ f, (some bostonFilters : Option CompanySearchFilters) = some f ∧
        f.location = some "Boston" ∧ ("Boston" : String) ≠ "")
  ∧ (searchCompaniesParams "ai" 50 (some bostonFilters)).location = some "Boston" :=
  ⟨⟨bostonFilters, rfl, rfl, by decide⟩,
    ((searchCompanies_params_included_iff "ai" 50 (some bostonFilters)).2.2.2.2.1 "Boston").mpr
      ⟨bostonFilters, rfl, rfl, by decide⟩⟩

/-! ### The legacy sendChatMessage wrapper (services/api.ts)

sendChatMessage opens the stream and folds the delivered events over
three mutable locals; the promise it returns resolves on an `end` event
(with the trimmed accumulated response, the session identifier and the
tools list) and rejects on an `error` event.  A JavaScript promise
settles at most once, so only the first resolve or reject takes effect;
the locals keep being mutated by later events but that is unobservable.
The model keeps the locals and an optional settlement. -/

/-- How the promise of sendChatMessage settled. -/
inductive Settled where
  | resolved (response : String) (session_id : String) (tools_used : List String)
  | rejectedWith (msg : String)
  deriving DecidableEq, Repr

/-- The mutable locals of sendChatMessage plus the settlement of the
returned promise. -/
structure SendState where
  finalResponse : String
  finalSessionId : String
  toolsUsed : List String
  settled : Option Settled
  deriving DecidableEq, Repr

/-- The effect of one event on the `finalResponse` local: a truthy
`content` message appends itself plus a space, a truthy `complete`
message replaces the accumulated text. -/
def respStep (acc : String) (e : ChatStreamEvent) : String :=
  match e.type, e.message with
  | EventType.content, some m => if m = "" then acc else acc ++ m ++ " "
  | EventType.complete, some m => if m = "" then acc else m
  | _, _ => acc

/-- The effect of one event on the `finalSessionId` local: a truthy
`complete` session identifier replaces it. -/
def sidStep (acc : String) (e : ChatStreamEvent) : String :=
  match e.type, e.session_id with
  | EventType.complete, some sid => if sid = "" then acc else sid
  | _, _ => acc

/-- The effect of one event on the `toolsUsed` local: a present
`complete` tools list replaces it (any array is truthy in JavaScript,
including the empty one). -/
def toolsStep (acc : List String) (e : ChatStreamEvent) : List String :=
  match e.type, e.tools_used with
  | EventType.complete, some ts => ts
  | _, _ => acc

/-- One event delivered to the callback sendChatMessage registers with
streamChatMessage: `content` and `complete` update the locals, `end`
resolves the promise with the trimmed response (first settlement wins),
`error` rejects it with the event message or the fallback text, and all
other event kinds are ignored. -/
def sendStep (s : SendState) (e : ChatStreamEvent) : SendState :=
  match e.type with
  | EventType.content =>
    match e.message with
    | some m => if m = "" then s else { s with finalResponse := s.finalResponse ++ m ++ " " }
    | none => s
  | EventType.complete =>
    let s1 := match e.message with
      | some m => if m = "" then s else { s with finalResponse := m }
      | none => s
    let s2 := match e.session_id with
      | some sid => if sid = "" then s1 else { s1 with finalSessionId := sid }
      | none => s1
    match e.tools_used with
    | some ts => { s2 with toolsUsed := ts }
    | none => s2
  | EventType.end_ =>
    match s.settled with
    | some _ => s
    | none =>
      { s with settled := some (Settled.resolved (jsTrim s.finalResponse)
          s.finalSessionId s.toolsUsed) }
  | EventType.error =>
    match s.settled with
    | some _ => s
    | none => { s with settled := some (Settled.rejectedWith (jsOrElse e.message "Chat failed")) }
  | _ => s

/-- The locals of sendChatMessage after a sequence of delivered events,
starting from the empty response, the supplied session identifier (or
the empty string) and no tools. -/
def sendChatMessage (sessionId : Option String) (events : List ChatStreamEvent) : SendState :=
  events.foldl sendStep
    { finalResponse := "", finalSessionId := jsOrElse sessionId "",
      toolsUsed := [], settled := none }

/-- The declarative response accumulator used to characterise the
resolution value. -/
def accumResponse (events : List ChatStreamEvent) : String :=
  events.foldl respStep ""

/-- The declarative session identifier: the last truthy `complete`
session identifier, defaulting to the supplied one. -/
def lastSessionId (sessionId : Option String) (events : List ChatStreamEvent) : String :=
  events.foldl sidStep (jsOrElse sessionId "")

/-- The declarative tools list: the last present `complete` tools list,
defaulting to the empty list. -/
def lastToolsUsed (events : List ChatStreamEvent) : List String :=
  events.foldl toolsStep []

theorem sendStep_nonterminal (s : SendState) (e : ChatStreamEvent)
    (h1 : e.type ≠ EventType.end_) (h2 : e.type ≠ EventType.error) :
    (sendStep s e).settled = s.settled
  ∧ (sendStep s e).finalResponse = respStep s.finalResponse e
  ∧ (sendStep s e).finalSessionId = sidStep s.finalSessionId e
  ∧ (sendStep s e).toolsUsed = toolsStep s.toolsUsed e := by
  cases he : e.type with
  | content =>
    cases hm : e.message with
    | none => simp [sendStep, respStep, sidStep, toolsStep, he, hm]
    | some m =>
      by_cases hm0 : m = ""
      · simp [sendStep, respStep, sidStep, toolsStep, he, hm, hm0]
      · simp [sendStep, respStep, sidStep, toolsStep, he, hm, hm0]
  | complete =>
    cases hm : e.message with
    | none =>
      cases hsid : e.session_id with
      | none =>
        cases hts : e.tools_used <;>
          simp [sendStep, respStep, sidStep, toolsStep, he, hm, hsid, hts]
      | some sid =>
        by_cases hsid0 : sid = ""
        · cases hts : e.tools_used <;>
            simp [sendStep, respStep, sidStep, toolsStep, he, hm, hsid, hts, hsid0]
        · cases hts : e.tools_used <;>
            simp [sendStep, respStep, sidStep, toolsStep, he, hm, hsid, hts, hsid0]
    | some m =>
      by_cases hm0 : m = ""
      · cases hsid : e.session_id with
        | none =>
          cases hts : e.tools_used <;>
            simp [sendStep, respStep, sidStep, toolsStep, he, hm, hsid, hts, hm0]
        | some sid =>
          by_cases hsid0 : sid = ""
          · cases hts : e.tools_used <;>
              simp [sendStep, respStep, sidStep, toolsStep, he, hm, hsid, hts, hm0, hsid0]
          · cases hts : e.tools_used <;>
              simp [sendStep, respStep, sidStep, toolsStep, he, hm, hsid, hts, hm0, hsid0]
      · cases hsid : e.session_id with
        | none =>
          cases hts : e.tools_used <;>
            simp [sendStep, respStep, sidStep, toolsStep, he, hm, hsid, hts, hm0]
        | some sid =>
          by_cases hsid0 : sid = ""
          · cases hts : e.tools_used <;>
              simp [sendStep, respStep, sidStep, toolsStep, he, hm, hsid, hts, hm0, hsid0]
          · cases hts : e.tools_used <;>
              simp [sendStep, respStep, sidStep, toolsStep, he, hm, hsid, hts, hm0, hsid0]
  | end_ => exact absurd he h1
  | error => exact absurd he h2
  | start => simp [sendStep, respStep, sidStep, toolsStep, he]
  | status => simp [sendStep, respStep, sidStep, toolsStep, he]
  | thinking => simp [sendStep, respStep, sidStep, toolsStep, he]
  | tool_call => simp [sendStep, respStep, sidStep, toolsStep, he]
  | tool => simp [sendStep, respStep, sidStep, toolsStep, he]

theorem sendSteps_no_terminal (pre : List ChatStreamEvent) :
    ∀ s : SendState, s.settled = none →
      (∀ e ∈ pre, e.type ≠ EventType.end_ ∧ e.type ≠ EventType.error) →
      pre.foldl sendStep s =
        { finalResponse := pre.foldl respStep s.finalResponse,
          finalSessionId := pre.foldl sidStep s.finalSessionId,
          toolsUsed := pre.foldl toolsStep s.toolsUsed,
          settled := none } := by
  induction pre with
  | nil =>
    intro s hs _
    obtain ⟨a, b, c, d⟩ := s
    simp only at hs
    rw [hs]
    rfl
  | cons e rest ih =>
    intro s hs hn
    have he := hn e (List.mem_cons_self e rest)
    have hstep := sendStep_nonterminal s e he.1 he.2
    rw [List.foldl_cons, List.foldl_cons, List.foldl_cons, List.foldl_cons,
      ih (sendStep s e) (by rw [hstep.1, hs]) (fun x hx => hn x (List.mem_cons_of_mem _ hx)),
      hstep.2.1, hstep.2.2.1, hstep.2.2.2]

theorem sendSteps_settled_stable (events : List ChatStreamEvent) :
    ∀ (s : SendState) (x : Settled), s.settled = some x →
      (events.foldl sendStep s).settled = some x := by
  induction events with
  | nil =>
    intro s x h
    simpa using h
  | cons e rest ih =>
    intro s x h
    rw [List.foldl_cons]
    refine ih _ x ?_
    cases he : e.type with
    | content =>
      rw [(sendStep_nonterminal s e (by simp [he]) (by simp [he])).1]
      exact h
    | complete =>
      rw [(sendStep_nonterminal s e (by simp [he]) (by simp [he])).1]
      exact h
    | end_ => simp [sendStep, he, h]
    | error => simp [sendStep, he, h]
    | start => simp [sendStep, he, h]
    | status => simp [sendStep, he, h]
    | thinking => simp [sendStep, he, h]
    | tool_call => simp [sendStep, he, h]
    | tool => simp [sendStep, he, h]

/-- C7 counterexample: two content chunks followed by the end event.
The source appends each content message plus a space, so the promise
resolves with the space-separated text, which differs from the trimmed
plain concatenation of the chunk messages stated by the claim. -/
theorem sendChatMessage_not_plain_concat :
    (sendChatMessage none
        [{ type := EventType.content, message := some "ab" },
         { type := EventType.content, message := some "cd" },
         { type := EventType.end_ }]).settled =
      some (Settled.resolved "ab cd" "" [])
  ∧ "ab cd" ≠ jsTrim ("ab" ++ "cd") := by
  exact ⟨by decide, by decide⟩

/-- C7 amended: the promise returned by sendChatMessage settles exactly
at the first `end` or `error` event.  Before any terminal event it is
unsettled; the first `end` resolves it with success, the trimmed
accumulated response (each truthy `content` message appended with a
following space, a truthy `complete` message replacing the accumulation
so far), the session identifier and tools list of the latest `complete`
event that carried them; the first `error` rejects it with the event
message (or the fallback text); and events after the first terminal
event never change the settlement. -/
theorem sendChatMessage_settles_on_first_terminal (sessionId : Option String)
    (pre post : List ChatStreamEvent) (e : ChatStreamEvent)
    (hpre : ∀ x ∈ pre, x.type ≠ EventType.end_ ∧ x.type ≠ EventType.error) :
    (sendChatMessage sessionId pre).settled = none
  ∧ (e.type = EventType.end_ →
      (sendChatMessage sessionId (pre ++ e :: post)).settled =
        some (Settled.resolved (jsTrim (accumResponse pre)) (lastSessionId sessionId pre)
          (lastToolsUsed pre)))
  ∧ (e.type = EventType.error →
      (sendChatMessage sessionId (pre ++ e :: post)).settled =
        some (Settled.rejectedWith (jsOrElse e.message "Chat failed")))
  ∧ ∀ (evts : List ChatStreamEvent) (m : String), m ≠ "" →
      accumResponse (evts ++ [{ type := EventType.complete, message := some m }]) = m := by
  have hlocals := sendSteps_no_terminal pre
    { finalResponse := "", finalSessionId := jsOrElse sessionId "",
      toolsUsed := [], settled := none } rfl hpre
  have hpre_state : sendChatMessage sessionId pre =
      { finalResponse := accumResponse pre, finalSessionId := lastSessionId sessionId pre,
        toolsUsed := lastToolsUsed pre, settled := none } := by
    rw [sendChatMessage, hlocals]
    rfl
  refine ⟨by rw [hpre_state], ?_, ?_, ?_⟩
  · intro he
    rw [sendChatMessage, List.foldl_append, List.foldl_cons]
    have : List.foldl sendStep
        { finalResponse := "", finalSessionId := jsOrElse sessionId "",
          toolsUsed := [], settled := none } pre = sendChatMessage sessionId pre := rfl
    rw [this, hpre_state]
    refine sendSteps_settled_stable post _ _ ?_
    simp [sendStep, he]
  · intro he
    rw [sendChatMessage, List.foldl_append, List.foldl_cons]
    have : List.foldl sendStep
        { finalResponse := "", finalSessionId := jsOrElse sessionId "",
          toolsUsed := [], settled := none } pre = sendChatMessage sessionId pre := rfl
    rw [this, hpre_state]
    refine sendSteps_settled_stable post _ _ ?_
    simp [sendStep, he]
  · intro evts m hm
    rw [accumResponse, List.foldl_append, List.foldl_cons, List.foldl_nil]
    simp [respStep, hm]

theorem sendChatMessage_settles_witness :
    (∀ x ∈ [({ type := EventType.content, message := some "ab" } : ChatStreamEvent),
            { type := EventType.complete, message := some "done", session_id := some "s1",
              tools_used := some ["search_companies"] }],
        x.type ≠ EventType.end_ ∧ x.type ≠ EventType.error)
  ∧ (sendChatMessage none
        ([({ type := EventType.content, message := some "ab" } : ChatStreamEvent),
          { type := EventType.complete, message := some "done", session_id := some "s1",
            tools_used := some ["search_companies"] }] ++
          ({ type := EventType.end_ } : ChatStreamEvent) :: [])).settled =
      some (Settled.resolved
        (jsTrim (accumResponse
          [({ type := EventType.content, message := some "ab" } : ChatStreamEvent),
           { type := EventType.complete, message := some "done", session_id := some "s1",
             tools_used := some ["search_companies"] }]))
        (lastSessionId none
          [({ type := EventType.content, message := some "ab" } : ChatStreamEvent),
           { type := EventType.complete, message := some "done", session_id := some "s1",
             tools_used := some ["search_companies"] }])
        (lastToolsUsed
          [({ type := EventType.content, message := some "ab" } : ChatStreamEvent),
           { type := EventType.complete, message := some "done", session_id := some "s1",
             tools_used := some ["search_companies"] }])) :=
  ⟨by decide,
    (sendChatMessage_settles_on_first_terminal none
      [({ type := EventType.content, message := some "ab" } : ChatStreamEvent),
       { type := EventType.complete, message := some "done", session_id := some "s1",
         tools_used := some ["search_companies"] }]
      [] { type := EventType.end_ } (by decide)).2.1 rfl⟩

end Nexalyze
